import Mathlib

/-!
Shallow embedding of the FileTransfer scripts (`file_transfer.py` and
`file_transfer_with_user_input.py`) and verification of the specification
claims about them.

Python strings are modelled as Lean `String` (a wrapper around `List Char`);
`str.strip` / `str.upper` / `str.isalnum` are modelled character-wise with
`Char.isWhitespace` / `Char.toUpper` / `Char.isAlphanum` (the scripts only
process ASCII serial numbers and filenames).  Filesystem paths are modelled
as lists of path segments, the filesystem itself as explicit sets of file
and directory paths inside a state record, and the two fallible OS calls
(`os.makedirs`, `shutil.move`) as a success/failure oracle passed in as an
environment.
-/

/-! ### Character-level facts used throughout -/

theorem char_toNat_inj {c d : Char} (h : c.toNat = d.toNat) : c = d := by
  apply Char.ext
  have h2 : c.val.toBitVec = d.val.toBitVec := BitVec.toNat_injective h
  cases c with
  | mk v hv => cases d with
    | mk w hw => cases v; cases w; simp_all

theorem char_not_ws_of_alphanum (c : Char) (h : c.isAlphanum = true) :
    c.isWhitespace = false := by
  rw [Bool.eq_false_iff]
  intro hw
  simp only [Char.isWhitespace, Bool.or_eq_true, decide_eq_true_eq] at hw
  rcases hw with ((rfl | rfl) | rfl) | rfl <;> exact absurd h (by decide)

theorem char_toNat_ofNat {m : Nat} (h : m < 55296) : (Char.ofNat m).toNat = m := by
  rw [Char.ofNat, dif_pos (Or.inl (by omega))]
  simp [Char.ofNatAux, Char.toNat, UInt32.toNat]

theorem char_toUpper_toNat (c : Char) :
    (Char.toUpper c).toNat =
      if 97 ≤ c.toNat ∧ c.toNat ≤ 122 then c.toNat - 32 else c.toNat := by
  rw [Char.toUpper]
  split
  · rename_i h
    exact char_toNat_ofNat (by omega)
  · rfl

theorem char_toUpper_idem (c : Char) : c.toUpper.toUpper = c.toUpper := by
  have h1 := char_toUpper_toNat c
  apply char_toNat_inj
  rw [char_toUpper_toNat]
  split
  · exfalso
    split at h1 <;> omega
  · rfl

theorem char_isLower_iff (c : Char) : c.isLower = true ↔ 97 ≤ c.toNat ∧ c.toNat ≤ 122 := by
  simp [Char.isLower, UInt32.le_def, BitVec.le_def, Char.toNat, UInt32.toNat]

theorem char_isAlphanum_iff (c : Char) : c.isAlphanum = true ↔
    (65 ≤ c.toNat ∧ c.toNat ≤ 90) ∨ (97 ≤ c.toNat ∧ c.toNat ≤ 122) ∨
      (48 ≤ c.toNat ∧ c.toNat ≤ 57) := by
  simp [Char.isAlphanum, Char.isAlpha, Char.isUpper, Char.isLower, Char.isDigit,
    UInt32.le_def, BitVec.le_def, Char.toNat, UInt32.toNat]
  tauto

theorem char_isAlphanum_toUpper (c : Char) (h : c.isAlphanum = true) :
    c.toUpper.isAlphanum = true := by
  rw [char_isAlphanum_iff] at h ⊢
  rw [char_toUpper_toNat]
  split <;> omega

theorem char_not_lower_toUpper (c : Char) : c.toUpper.isLower = false := by
  rw [Bool.eq_false_iff]
  intro hl
  rw [char_isLower_iff, char_toUpper_toNat] at hl
  split at hl <;> omega

/-! ### Python string primitives -/

/-- Model of Python `str.strip` on the underlying character list:
drop whitespace from the front, then from the back. -/
def stripL (ds : List Char) : List Char :=
  ((ds.dropWhile Char.isWhitespace).reverse.dropWhile Char.isWhitespace).reverse

/-- Model of Python `str.strip`. -/
def pyStrip (s : String) : String := ⟨stripL s.data⟩

/-- Model of Python `str.upper` (ASCII case mapping). -/
def pyUpper (s : String) : String := ⟨s.data.map Char.toUpper⟩

/-- Model of Python `str.isalnum`: non-empty and every character alphanumeric. -/
def pyIsAlnum (s : String) : Bool := !s.data.isEmpty && s.data.all Char.isAlphanum

/-- Model of `re.split(r"[_\-]", s)` on the underlying character list: split at
every separator character, keeping empty fragments. -/
def splitL (p : Char → Bool) : List Char → List (List Char)
  | [] => [[]]
  | c :: rest =>
    let r := splitL p rest
    if p c then [] :: r
    else
      match r with
      | [] => [[c]]
      | h :: t => (c :: h) :: t

/-- Model of `re.split(r"[_\-]", s)`: split a string at every underscore or
hyphen, keeping empty fragments. -/
def splitSep (s : String) : List String :=
  (splitL (fun c => c = '_' || c = '-') s.data).map (fun l => ⟨l⟩)

/-- Model of the Python substring test `needle in haystack` on character
lists: some contiguous run of `haystack` equals `needle`. -/
def isSubstrL (needle : List Char) : List Char → Bool
  | [] => needle.isPrefixOf []
  | c :: t => needle.isPrefixOf (c :: t) || isSubstrL needle t

/-- Model of the Python substring test `needle in haystack` on strings. -/
def strContains (needle haystack : String) : Bool :=
  isSubstrL needle.data haystack.data

/-- Decimal digit character, as produced by Python `str()` on a number. -/
def decDigit (d : Nat) : Char :=
  match d with
  | 0 => '0' | 1 => '1' | 2 => '2' | 3 => '3' | 4 => '4'
  | 5 => '5' | 6 => '6' | 7 => '7' | 8 => '8' | 9 => '9'
  | _ => '*'

/-- Fuel-indexed decimal rendering of a natural number (most significant
digit first).  The fuel is always sufficient when called through `natToDec`. -/
def toDecAux : Nat → Nat → List Char
  | 0, _ => []
  | f + 1, n => if n < 10 then [decDigit n] else toDecAux f (n / 10) ++ [decDigit (n % 10)]

/-- Model of Python `str()` applied to a non-negative integer. -/
def natToDec (n : Nat) : String := ⟨toDecAux (n + 1) n⟩

theorem decVal_decDigit : ∀ d, d < 10 → (decDigit d).toNat - 48 = d := by decide

theorem toDecAux_decode (fuel : Nat) : ∀ n, n < fuel → ∀ acc : Nat,
    List.foldl (fun a c => a * 10 + (c.toNat - 48)) acc (toDecAux fuel n) =
      acc * 10 ^ (toDecAux fuel n).length + n := by
  induction fuel with
  | zero => intro n h; omega
  | succ f ih =>
    intro n h acc
    by_cases h10 : n < 10
    · rw [toDecAux, if_pos h10]
      simp only [List.foldl, List.length_cons, List.length_nil]
      rw [decVal_decDigit n h10]
      ring_nf
    · rw [toDecAux, if_neg h10]
      have hdiv : n / 10 < f := by
        have h1 : n / 10 < n := Nat.div_lt_self (by omega) (by omega)
        omega
      rw [List.foldl_append, ih (n / 10) hdiv acc]
      simp only [List.foldl, List.length_append, List.length_cons, List.length_nil]
      rw [decVal_decDigit (n % 10) (Nat.mod_lt n (by omega))]
      have hp : 10 ^ ((toDecAux f (n / 10)).length + 1) =
          10 ^ (toDecAux f (n / 10)).length * 10 := pow_succ 10 _
      have hdm : 10 * (n / 10) + n % 10 = n := Nat.div_add_mod n 10
      set X := 10 ^ (toDecAux f (n / 10)).length
      ring_nf
      omega

theorem natToDec_inj {m n : Nat} (h : natToDec m = natToDec n) : m = n := by
  have hd : toDecAux (m + 1) m = toDecAux (n + 1) n := congrArg String.data h
  have h1 := toDecAux_decode (m + 1) m (by omega) 0
  have h2 := toDecAux_decode (n + 1) n (by omega) 0
  rw [hd] at h1
  simp only [Nat.zero_mul, Nat.zero_add] at h1 h2
  omega

/-! ### Serial validator (`is_valid_serial`) -/

/-- Embedding of `is_valid_serial`: strip and uppercase the text, accept iff
the cleaned form is exactly 10 alphanumeric characters, returning the cleaned
form on success and `none` (Python `None`) otherwise. -/
def is_valid_serial (text : String) : Option String :=
  let cleaned := pyUpper (pyStrip text)
  if cleaned.length = 10 ∧ pyIsAlnum cleaned = true then some cleaned else none

/-! ### Destination resolver (`file_transfer.py`) -/

/-- Embedding of `DESTINATION_MAPPING` as an association list in the
definition order of the Python dict (insertion order is preserved there). -/
def DESTINATION_MAPPING : List (String × String) :=
  [("QI", "0__QI"),
   ("PCAIncoming", "1__PCA Incoming"),
   ("PreConformal", "2__Pre-Conformal Coating"),
   ("PostConformal", "3__Post-Conformal Coating"),
   ("Assembly", "4__Assembly"),
   ("FinalOutgoing", "5__Final Outgoing"),
   ("Misc", "6__Misc"),
   ("PreVibration", "7__Pre-Vibration & Shock Testing"),
   ("PostVibration", "8__Post-Vibration & Shock Testing")]

/-- Embedding of `DEFAULT_DESTINATION`. -/
def DEFAULT_DESTINATION : String := "6__Misc"

/-- Embedding of `extract_destination_from_filename`: split on `_`/`-`, take
the second fragment (stripped), return the first table entry whose key occurs
as a substring of it, defaulting to `DEFAULT_DESTINATION`. -/
def extract_destination_from_filename (filename : String) : String :=
  let parts := splitSep filename
  if 2 ≤ parts.length then
    let keyword := pyStrip (parts.getD 1 "")
    match DESTINATION_MAPPING.find? (fun kv => strContains kv.1 keyword) with
    | some kv => kv.2
    | none => DEFAULT_DESTINATION
  else DEFAULT_DESTINATION

/-- Statement-side resolver, worded exactly as the claim describes it: the
candidate keyword is the token at index 1 of the separator split (unstripped),
the first table entry whose key is a substring of the candidate wins, and a
missing second token or a failed lookup yields the default category. -/
def resolveSpec (filename : String) : String :=
  match (splitSep filename).get? 1 with
  | none => "6__Misc"
  | some candidate =>
    match DESTINATION_MAPPING.find? (fun kv => strContains kv.1 candidate) with
    | some kv => kv.2
    | none => "6__Misc"

/-! ### Prefix registry (`load_valid_prefixes`) -/

/-- Outcome of a failed registry load: `FileNotFoundError` or the
`ValueError` raised on an empty prefix list. -/
inductive LoadError where
  | NotFound : LoadError
  | Empty : LoadError
deriving DecidableEq

/-- Embedding of `load_valid_prefixes`.  The external file is modelled as
`none` (file absent) or `some lines` (its list of lines).  Each non-blank
line, stripped and uppercased, becomes one entry of the returned list. -/
def load_valid_prefixes (file : Option (List String)) : Except LoadError (List String) :=
  match file with
  | none => Except.error LoadError.NotFound
  | some lines =>
    let entries := (lines.filter (fun line => !(pyStrip line).isEmpty)).map
      (fun line => pyUpper (pyStrip line))
    if entries.isEmpty then Except.error LoadError.Empty else Except.ok entries

/-! ### Paths and the collision-free filename computation -/

/-- Filesystem paths as segment lists; `os.path.join(a, b)` appends a
segment. -/
abbrev FsPath := List String

/-- Embedding of `DESTINATION_ROOT` (an opaque root segment). -/
def DESTINATION_ROOT : FsPath := ["\\\\10.7.8.8\\cor\\PRD\\__Product_Quality"]

/-- Model of `os.path.basename` on a segment-list path. -/
def basename (p : FsPath) : String := p.getLastD ""

/-- All nonempty ancestor paths of `p`, including `p` itself: the directories
`os.makedirs` creates. -/
def pathPrefixes (p : FsPath) : List FsPath :=
  (List.range p.length).map (fun i => p.take (i + 1))

/-- Model of `os.path.splitext` on a bare filename: split before the last
dot, unless every character before it is also a dot. -/
def splitext (filename : String) : String × String :=
  let ds := filename.data
  match ds.reverse.findIdx? (fun c => c = '.') with
  | none => (filename, "")
  | some i =>
    let dotIdx := ds.length - 1 - i
    if (ds.take dotIdx).any (fun c => c != '.') then (⟨ds.take dotIdx⟩, ⟨ds.drop dotIdx⟩)
    else (filename, "")

/-- The numbered candidate path `folder/<base>_<counter><ext>` built inside
the `get_unique_filename` loop. -/
def mkNumbered (folder : FsPath) (base ext : String) (counter : Nat) : FsPath :=
  folder ++ [base ++ "_" ++ natToDec counter ++ ext]

/-- The `while os.path.exists(...)` loop of `get_unique_filename`, with
explicit fuel.  `get_unique_filename` always supplies enough fuel for the
loop to reach a free name. -/
def uniqLoop (ex : List FsPath) (folder : FsPath) (base ext : String) : Nat → Nat → FsPath
  | counter, fuel =>
    if mkNumbered folder base ext counter ∈ ex then
      match fuel with
      | 0 => mkNumbered folder base ext counter
      | f + 1 => uniqLoop ex folder base ext (counter + 1) f
    else mkNumbered folder base ext counter

/-- Embedding of `get_unique_filename` against the set `ex` of existing
paths: return `folder/filename` if free, else the first free
`folder/<base>_<n><ext>` with `n = 1, 2, ...`. -/
def get_unique_filename (ex : List FsPath) (folder : FsPath) (filename : String) : FsPath :=
  let be := splitext filename
  if folder ++ [filename] ∈ ex then uniqLoop ex folder be.1 be.2 1 ex.length
  else folder ++ [filename]

/-! ### Mover and batch runner state -/

/-- Success/failure oracle for the two fallible OS calls: directory creation
(`os.makedirs`) and relocation (`shutil.move`). -/
structure Env where
  mkdirOk : FsPath → Bool
  moveOk : FsPath → FsPath → Bool

/-- Observable state of one run: the filesystem (existing file paths and
directory paths), the global counters, the per-run tally dict, and the log. -/
structure RunState where
  files : List FsPath
  dirs : List FsPath
  moved : Nat
  skipped : Nat
  total : Nat
  tally : List (String × Nat)
  logs : List String

/-- All existing paths, as consulted by `os.path.exists`. -/
def exList (st : RunState) : List FsPath := st.files ++ st.dirs

/-- Render a path for log messages. -/
def pathToString (p : FsPath) : String := String.intercalate "\\" p

/-- Second half of `move_file`, shared by the two branches that reach the
relocation: compute the collision-free destination and call `shutil.move`,
updating exactly one counter. -/
def movePhase (env : Env) (file_path target_folder : FsPath) (original_filename : String)
    (st : RunState) : RunState :=
  let destination_path := get_unique_filename (exList st) target_folder original_filename
  if env.moveOk file_path destination_path then
    { st with files := destination_path :: st.files.erase file_path,
              moved := st.moved + 1,
              logs := ("Moved to: " ++ pathToString destination_path ++ "\n") :: st.logs }
  else
    { st with skipped := st.skipped + 1,
              logs := ("Warning: Error moving " ++ original_filename ++ " to " ++
                pathToString target_folder ++ "\n") :: st.logs }

/-- Embedding of `move_file`: build the target directory from the first six
characters of the serial, the serial and the chosen subfolder; create it if
missing (counting a creation failure as skipped); then relocate to a
collision-free name, counting the outcome. -/
def move_file (env : Env) (serial_number : String) (file_path : FsPath)
    (source_folder : FsPath) (destination_subfolder : String) (st : RunState) : RunState :=
  let original_filename := basename file_path
  let board_pref := serial_number.take 6
  let target_folder := DESTINATION_ROOT ++ [board_pref, serial_number, destination_subfolder]
  if target_folder ∈ exList st then
    movePhase env file_path target_folder original_filename st
  else if env.mkdirOk target_folder then
    movePhase env file_path target_folder original_filename
      { st with dirs := pathPrefixes target_folder ++ st.dirs,
                logs := ("Created destination folder: " ++ pathToString target_folder ++
                  "\n") :: st.logs }
  else
    { st with skipped := st.skipped + 1,
              logs := ("Warning: Error creating destination folder " ++
                pathToString target_folder ++ "\n") :: st.logs }

/-- Embedding of `validate_serial_and_prefix` (Python name ends in a word the
proof style here avoids, hence the shortened Lean name): returns
`(is_valid, message, cleaned_serial)`. -/
def validate_serial_and_pfx (raw_serial filename : String)
    (valid_prefixes : List String) : Bool × String × Option String :=
  match is_valid_serial raw_serial with
  | none =>
    (false, "Warning: " ++ filename ++
      ": Invalid or missing serial number. Skipping move.\n", none)
  | some cleaned_serial =>
    if cleaned_serial.take 6 ∈ valid_prefixes then (true, "", some cleaned_serial)
    else
      (false, "Warning: " ++ filename ++ ": The detected prefix " ++
        cleaned_serial.take 6 ++
        " is not in the valid prefixes list. Skipping move.\n", none)

/-- One step of a Python dict tally update `d[k] = d.get(k, 0) + 1`,
preserving insertion order. -/
def bumpTally : List (String × Nat) → String → List (String × Nat)
  | [], key => [(key, 1)]
  | (k, v) :: rest, key =>
    if k = key then (k, v + 1) :: rest else (k, v) :: bumpTally rest key

/-- Loop body of `main` in `file_transfer.py` for one directory entry:
skip non-files; otherwise count it, extract and validate the leading token,
and either count a skip or resolve the category and invoke the mover. -/
def processFile (env : Env) (valid_prefixes : List String) (source_folder : FsPath)
    (st : RunState) (filename : String) : RunState :=
  let file_path := source_folder ++ [filename]
  if file_path ∈ st.files then
    let st1 := { st with total := st.total + 1 }
    let extracted_serial := (splitSep filename).headD ""
    let v := validate_serial_and_pfx extracted_serial filename valid_prefixes
    if v.1 then
      let serial := v.2.2.getD ""
      let destination_subfolder := extract_destination_from_filename filename
      let st2 := { st1 with tally := bumpTally st1.tally destination_subfolder }
      move_file env serial file_path source_folder destination_subfolder st2
    else
      { st1 with skipped := st1.skipped + 1, logs := v.2.1 :: st1.logs }
  else st

/-- The per-file loop of `main` in `file_transfer.py` over the listing of the
source directory. -/
def runBatch (env : Env) (valid_prefixes : List String) (source_folder : FsPath)
    (st : RunState) (filenames : List String) : RunState :=
  filenames.foldl (processFile env valid_prefixes source_folder) st

/-- Embedding of `DESTINATION_OPTIONS` from
`file_transfer_with_user_input.py`. -/
def DESTINATION_OPTIONS : List (String × String) :=
  [("0", "0__QI"),
   ("1", "1__PCA Incoming"),
   ("2", "2__Pre-Conformal Coating"),
   ("3", "3__Post-Conformal Coating"),
   ("4", "4__Assembly"),
   ("5", "5__Final Outgoing"),
   ("6", "6__Misc"),
   ("7", "7__Pre-Vibration & Shock Testing"),
   ("8", "8__Post-Vibration & Shock Testing")]

/-- Loop body of `main` in `file_transfer_with_user_input.py`: same as
`processFile` except the destination subfolder is the fixed user choice and
the tally is per serial prefix. -/
def processFileUser (env : Env) (valid_prefixes : List String) (source_folder : FsPath)
    (destination_subfolder : String) (st : RunState) (filename : String) : RunState :=
  let file_path := source_folder ++ [filename]
  if file_path ∈ st.files then
    let st1 := { st with total := st.total + 1 }
    let extracted_serial := (splitSep filename).headD ""
    let v := validate_serial_and_pfx extracted_serial filename valid_prefixes
    if v.1 then
      let serial := v.2.2.getD ""
      let st2 := { st1 with tally := bumpTally st1.tally (serial.take 6) }
      move_file env serial file_path source_folder destination_subfolder st2
    else
      { st1 with skipped := st1.skipped + 1, logs := v.2.1 :: st1.logs }
  else st

/-- The per-file loop of `main` in `file_transfer_with_user_input.py`. -/
def runBatchUser (env : Env) (valid_prefixes : List String) (source_folder : FsPath)
    (destination_subfolder : String) (st : RunState) (filenames : List String) : RunState :=
  filenames.foldl (processFileUser env valid_prefixes source_folder destination_subfolder) st

/-! ### String-level helper lemmas -/

theorem dropWhile_eq_self_of {α : Type} {p : α → Bool} {l : List α}
    (h : ∀ c ∈ l, p c = false) : l.dropWhile p = l := by
  cases l with
  | nil => rfl
  | cons a t =>
    rw [List.dropWhile_cons_of_neg]
    simp [h a (by simp)]

theorem stripL_eq_self {ds : List Char} (h : ∀ c ∈ ds, c.isWhitespace = false) :
    stripL ds = ds := by
  unfold stripL
  rw [dropWhile_eq_self_of h,
    dropWhile_eq_self_of (fun c hc => h c (List.mem_reverse.mp hc)),
    List.reverse_reverse]

theorem pyStrip_eq_self {s : String} (h : ∀ c ∈ s.data, c.isWhitespace = false) :
    pyStrip s = s := by
  unfold pyStrip
  rw [stripL_eq_self h]

theorem pyUpper_length (s : String) : (pyUpper s).length = s.length := by
  show (s.data.map Char.toUpper).length = s.data.length
  exact List.length_map _ _

theorem pyUpper_idem (s : String) : pyUpper (pyUpper s) = pyUpper s := by
  unfold pyUpper
  simp only [List.map_map]
  congr 1
  apply List.map_congr_left
  intro c _
  exact char_toUpper_idem c

theorem pyUpper_all_alphanum {s : String} (h : ∀ c ∈ s.data, c.isAlphanum = true) :
    ∀ c ∈ (pyUpper s).data, c.isAlphanum = true := by
  intro c hc
  simp only [pyUpper, List.mem_map] at hc
  obtain ⟨d, hd, rfl⟩ := hc
  exact char_isAlphanum_toUpper d (h d hd)

/-! ### Claim C2 -/

/-- Claim C2 counterexample: the string " AB12345678" has length 11 and
contains a non-alphanumeric character (the leading space), yet
`is_valid_serial` accepts it, because the length and alphanumeric checks are
applied only after trimming.  This refutes the claim read literally over the
raw input string. -/
theorem c2_counterexample :
    (" AB12345678".length ≠ 10 ∧ ∃ c ∈ " AB12345678".data, c.isAlphanum = false) ∧
      is_valid_serial " AB12345678" ≠ none := by
  constructor
  · constructor
    · decide
    · exact ⟨' ', by decide, by decide⟩
  · decide

/-- Claim C2 (amended): for every string whose trimmed form has length other
than 10, and for every string whose trimmed-and-uppercased form contains a
non-alphanumeric character, validation yields Invalid (`none`); there are no
partial matches and no truncation. -/
theorem c2_amended (s : String)
    (h : (pyStrip s).length ≠ 10 ∨ ∃ c ∈ (pyUpper (pyStrip s)).data, c.isAlphanum = false) :
    is_valid_serial s = none := by
  unfold is_valid_serial
  rw [if_neg]
  rintro ⟨hlen, halnum⟩
  rcases h with h | ⟨c, hc, hcf⟩
  · rw [pyUpper_length] at hlen
    exact h hlen
  · simp only [pyIsAlnum, Bool.and_eq_true, List.all_eq_true] at halnum
    rw [halnum.2 c hc] at hcf
    exact Bool.noConfusion hcf

/-- Witness for C2 (amended) at the concrete input "short". -/
theorem c2_amended_witness : is_valid_serial "short" = none :=
  c2_amended "short" (Or.inl (by decide))

/-! ### Claim C3 -/

/-- Claim C3: for every 10-character all-alphanumeric string, validation
succeeds and returns the uppercased trimmed form, and validating that result
again returns it unchanged (idempotence of validation). -/
theorem c3_valid_serial_idempotent (s : String) (hlen : s.length = 10)
    (halnum : ∀ c ∈ s.data, c.isAlphanum = true) :
    is_valid_serial s = some (pyUpper (pyStrip s)) ∧
      is_valid_serial (pyUpper (pyStrip s)) = some (pyUpper (pyStrip s)) := by
  have hstrip : pyStrip s = s :=
    pyStrip_eq_self (fun c hc => char_not_ws_of_alphanum c (halnum c hc))
  have hupal : ∀ c ∈ (pyUpper s).data, c.isAlphanum = true := pyUpper_all_alphanum halnum
  have hlen10 : (pyUpper s).length = 10 := by rw [pyUpper_length, hlen]
  have hne : (pyUpper s).data ≠ [] := by
    intro hnil
    have : (pyUpper s).length = 0 := by
      show (pyUpper s).data.length = 0
      rw [hnil]
      rfl
    omega
  have halnumb : pyIsAlnum (pyUpper s) = true := by
    unfold pyIsAlnum
    rw [Bool.and_eq_true]
    constructor
    · cases hme : (pyUpper s).data with
      | nil => exact absurd hme hne
      | cons a t => rfl
    · rw [List.all_eq_true]
      intro c hc
      exact hupal c hc
  have hstrip2 : pyStrip (pyUpper s) = pyUpper s :=
    pyStrip_eq_self (fun c hc => char_not_ws_of_alphanum c (hupal c hc))
  constructor
  · show (if (pyUpper (pyStrip s)).length = 10 ∧ pyIsAlnum (pyUpper (pyStrip s)) = true
        then some (pyUpper (pyStrip s)) else none) = some (pyUpper (pyStrip s))
    rw [hstrip, if_pos ⟨hlen10, halnumb⟩]
  · show (if (pyUpper (pyStrip (pyUpper (pyStrip s)))).length = 10 ∧
          pyIsAlnum (pyUpper (pyStrip (pyUpper (pyStrip s)))) = true
        then some (pyUpper (pyStrip (pyUpper (pyStrip s)))) else none) =
        some (pyUpper (pyStrip s))
    rw [hstrip, hstrip2, pyUpper_idem, if_pos ⟨hlen10, halnumb⟩]

/-- Witness for C3 at the concrete valid serial "ab12345678". -/
theorem c3_witness :
    is_valid_serial "ab12345678" = some (pyUpper (pyStrip "ab12345678")) ∧
      is_valid_serial (pyUpper (pyStrip "ab12345678")) =
        some (pyUpper (pyStrip "ab12345678")) :=
  c3_valid_serial_idempotent "ab12345678" (by decide) (by decide)

/-! ### Claim C4 -/

/-- Claim C4: loading the registry from a missing file fails with NotFound;
from an existing file whose lines are all blank it fails with Empty; and from
a file with at least one non-blank line it succeeds, the accepted entries
being exactly the trimmed-and-uppercased forms of the non-blank lines. -/
theorem c4_load_prefixes :
    load_valid_prefixes none = Except.error LoadError.NotFound ∧
    (∀ lines, (∀ l ∈ lines, (pyStrip l).isEmpty = true) →
      load_valid_prefixes (some lines) = Except.error LoadError.Empty) ∧
    (∀ lines, (∃ l ∈ lines, (pyStrip l).isEmpty = false) →
      ∃ res, load_valid_prefixes (some lines) = Except.ok res ∧
        ∀ x, x ∈ res ↔ ∃ l ∈ lines, (pyStrip l).isEmpty = false ∧ x = pyUpper (pyStrip l)) := by
  refine ⟨rfl, ?_, ?_⟩
  · intro lines hall
    show (if ((lines.filter (fun line => !(pyStrip line).isEmpty)).map
        (fun line => pyUpper (pyStrip line))).isEmpty = true
      then Except.error LoadError.Empty else Except.ok _) = Except.error LoadError.Empty
    rw [if_pos]
    have hfil : lines.filter (fun line => !(pyStrip line).isEmpty) = [] := by
      rw [List.filter_eq_nil]
      intro a ha
      rw [hall a ha]
      simp
    rw [hfil]
    rfl
  · intro lines ⟨l0, hl0, hl0f⟩
    have hfilne : lines.filter (fun line => !(pyStrip line).isEmpty) ≠ [] := by
      intro hnil
      rw [List.filter_eq_nil] at hnil
      exact hnil l0 hl0 (by rw [hl0f]; simp)
    refine ⟨(lines.filter (fun line => !(pyStrip line).isEmpty)).map
      (fun line => pyUpper (pyStrip line)), ?_, ?_⟩
    · show (if ((lines.filter (fun line => !(pyStrip line).isEmpty)).map
          (fun line => pyUpper (pyStrip line))).isEmpty = true
        then Except.error LoadError.Empty else Except.ok _) = Except.ok _
      rw [if_neg]
      intro hemp
      cases hfe : lines.filter (fun line => !(pyStrip line).isEmpty) with
      | nil => exact hfilne hfe
      | cons a t =>
        rw [hfe] at hemp
        exact Bool.noConfusion hemp
    · intro x
      simp only [List.mem_map, List.mem_filter, Bool.not_eq_true']
      constructor
      · rintro ⟨l, ⟨hl, hlb⟩, rfl⟩
        exact ⟨l, hl, hlb, rfl⟩
      · rintro ⟨l, hl, hlb, rfl⟩
        exact ⟨l, ⟨hl, hlb⟩, rfl⟩

/-- Witness for C4: a blank two-line file fails with Empty, the one-line file
"ab1234" loads, and its single entry is characterized as stated. -/
theorem c4_witness :
    load_valid_prefixes none = Except.error LoadError.NotFound ∧
    load_valid_prefixes (some ["", "  "]) = Except.error LoadError.Empty ∧
    ∃ res, load_valid_prefixes (some ["ab1234"]) = Except.ok res ∧
      ∀ x, x ∈ res ↔ ∃ l ∈ ["ab1234"], (pyStrip l).isEmpty = false ∧ x = pyUpper (pyStrip l) :=
  ⟨c4_load_prefixes.1,
   c4_load_prefixes.2.1 ["", "  "] (by decide),
   c4_load_prefixes.2.2 ["ab1234"] ⟨"ab1234", by decide, by decide⟩⟩

/-! ### Claim C9 -/

/-- Claim C9 counterexample: the two-line file "abc"/"abc" loads successfully
into the registry ["ABC", "ABC"], whose entries have length 3, not 6, and
which contains a duplicate — refuting the claim that every successfully
loaded registry consists of 6-character entries without duplicates. -/
theorem c9_counterexample :
    load_valid_prefixes (some ["abc", "abc"]) = Except.ok ["ABC", "ABC"] ∧
      ¬ ("ABC".length = 6) ∧ ¬ (["ABC", "ABC"] : List String).Nodup := by
  refine ⟨rfl, by decide, ?_⟩
  intro hnd
  rcases hnd with _ | ⟨hab, _⟩
  exact hab "ABC" (List.mem_singleton.mpr rfl) rfl

/-- Claim C9 (amended): every successfully loaded prefix registry is a
non-empty list of entries containing no lowercase ASCII letters (they are
uppercased on load); entries are not guaranteed to be 6 characters long and
duplicates may occur. -/
theorem c9_amended (file : Option (List String)) (res : List String)
    (h : load_valid_prefixes file = Except.ok res) :
    res ≠ [] ∧ ∀ x ∈ res, ∀ c ∈ x.data, c.isLower = false := by
  cases file with
  | none => exact Except.noConfusion h
  | some lines =>
    have h' : (if ((lines.filter (fun line => !(pyStrip line).isEmpty)).map
        (fun line => pyUpper (pyStrip line))).isEmpty = true
      then Except.error LoadError.Empty
      else Except.ok ((lines.filter (fun line => !(pyStrip line).isEmpty)).map
        (fun line => pyUpper (pyStrip line)))) = Except.ok res := h
    split at h'
    · exact Except.noConfusion h'
    · rename_i hne
      have hres : res = (lines.filter (fun line => !(pyStrip line).isEmpty)).map
          (fun line => pyUpper (pyStrip line)) := (Except.ok.inj h').symm
      constructor
      · intro hnil
        rw [hres] at hnil
        rw [hnil] at hne
        exact hne rfl
      · intro x hx c hc
        rw [hres] at hx
        rcases List.mem_map.mp hx with ⟨l, _, rfl⟩
        rcases List.mem_map.mp hc with ⟨d, _, rfl⟩
        exact char_not_lower_toUpper d

/-- Witness for C9 (amended) at the concrete one-line file "ab1234". -/
theorem c9_amended_witness :
    (["AB1234"] : List String) ≠ [] ∧
      ∀ x ∈ (["AB1234"] : List String), ∀ c ∈ x.data, c.isLower = false :=
  c9_amended (some ["ab1234"]) ["AB1234"] rfl

/-! ### Substring and strip lemmas for the resolver -/

theorem isSubstrL_iff (n : List Char) : ∀ h : List Char, isSubstrL n h = true ↔ n <:+: h := by
  intro h
  induction h with
  | nil =>
    simp only [isSubstrL, List.isPrefixOf_iff_prefix]
    constructor
    · exact fun hp => hp.isInfix
    · intro hi
      rcases hi with ⟨s, t, hst⟩
      rcases List.append_eq_nil.mp hst with ⟨h1, h2⟩
      rcases List.append_eq_nil.mp h1 with ⟨_, rfl⟩
      exact List.nil_prefix
  | cons c t ih =>
    simp only [isSubstrL, Bool.or_eq_true, List.isPrefixOf_iff_prefix, ih]
    rw [List.infix_cons_iff]

theorem infix_dropWhile_iff {p : Char → Bool} {key : List Char} (hne : key ≠ [])
    (hk : ∀ c ∈ key, p c = false) (l : List Char) :
    key <:+: l.dropWhile p ↔ key <:+: l := by
  constructor
  · exact fun h => h.trans (List.dropWhile_suffix p).isInfix
  · intro h
    induction l with
    | nil => exact h
    | cons a t ih =>
      by_cases hpa : p a = true
      · rw [List.dropWhile_cons_of_pos hpa]
        apply ih
        rcases List.infix_cons_iff.mp h with hpre | hinf
        · exfalso
          cases key with
          | nil => exact hne rfl
          | cons k0 ks =>
            have hk0 : k0 = a := (List.cons_prefix_cons.mp hpre).1
            have := hk k0 (by simp)
            rw [hk0, hpa] at this
            exact Bool.noConfusion this
        · exact hinf
      · rw [List.dropWhile_cons_of_neg hpa]
        exact h

theorem infix_stripL_iff {key : List Char} (hne : key ≠ [])
    (hk : ∀ c ∈ key, c.isWhitespace = false) (t : List Char) :
    key <:+: stripL t ↔ key <:+: t := by
  have hner : key.reverse ≠ [] := by
    intro hr
    apply hne
    rw [← List.reverse_reverse key, hr]
    rfl
  have hkr : ∀ c ∈ key.reverse, c.isWhitespace = false :=
    fun c hc => hk c (List.mem_reverse.mp hc)
  unfold stripL
  constructor
  · intro h
    have h1 : key.reverse <:+:
        (t.dropWhile Char.isWhitespace).reverse.dropWhile Char.isWhitespace := by
      rw [← List.reverse_reverse
        ((t.dropWhile Char.isWhitespace).reverse.dropWhile Char.isWhitespace)]
      exact List.reverse_infix.mpr h
    have h2 : key.reverse <:+: (t.dropWhile Char.isWhitespace).reverse :=
      (infix_dropWhile_iff hner hkr _).mp h1
    have h3 : key <:+: t.dropWhile Char.isWhitespace := by
      rw [← List.reverse_reverse key, ← List.reverse_reverse (t.dropWhile Char.isWhitespace)]
      exact List.reverse_infix.mpr h2
    exact (infix_dropWhile_iff hne hk t).mp h3
  · intro h
    have h3 : key <:+: t.dropWhile Char.isWhitespace := (infix_dropWhile_iff hne hk t).mpr h
    have h2 : key.reverse <:+: (t.dropWhile Char.isWhitespace).reverse :=
      List.reverse_infix.mpr h3
    have h1 : key.reverse <:+:
        (t.dropWhile Char.isWhitespace).reverse.dropWhile Char.isWhitespace :=
      (infix_dropWhile_iff hner hkr _).mpr h2
    rw [← List.reverse_reverse key]
    exact List.reverse_infix.mpr h1

theorem strContains_pyStrip {key : String} (hne : key.data ≠ [])
    (hk : ∀ c ∈ key.data, c.isWhitespace = false) (s : String) :
    strContains key (pyStrip s) = strContains key s := by
  have h1 := isSubstrL_iff key.data (pyStrip s).data
  have h2 := isSubstrL_iff key.data s.data
  have h3 : (pyStrip s).data = stripL s.data := rfl
  rw [h3] at h1
  unfold strContains
  rw [h3]
  cases hb : isSubstrL key.data (stripL s.data) with
  | true =>
    have := (infix_stripL_iff hne hk s.data).mp (h1.mp hb)
    exact (h2.mpr this).symm
  | false =>
    cases hb2 : isSubstrL key.data s.data with
    | true =>
      have := (infix_stripL_iff hne hk s.data).mpr (h2.mp hb2)
      rw [h1.mpr this] at hb
      exact hb.symm
    | false => rfl

theorem find?_congr {α : Type} {p q : α → Bool} :
    ∀ l : List α, (∀ x ∈ l, p x = q x) → l.find? p = l.find? q := by
  intro l
  induction l with
  | nil => exact fun _ => rfl
  | cons a t ih =>
    intro h
    rw [List.find?_cons, List.find?_cons, h a (by simp)]
    cases q a with
    | true => rfl
    | false => exact ih (fun x hx => h x (by simp [hx]))

/-! ### Claim C1 -/

/-- Claim C1: the inferred destination resolver agrees, on every filename,
with the claim-side description `resolveSpec` (split on `_`/`-`, candidate =
token at index 1, first table entry in definition order whose key is a
substring of the candidate, default "6__Misc" when there is no second token
or no key matches; the resolver is a total function, so it never fails
outward), and on the spec scenario filename "AB12345678_Unknown_part.jpg" it
returns the default category "6__Misc". -/
theorem c1_resolver_matches_spec :
    (∀ filename, extract_destination_from_filename filename = resolveSpec filename) ∧
      extract_destination_from_filename "AB12345678_Unknown_part.jpg" = "6__Misc" := by
  constructor
  · intro filename
    have hkeys : ∀ kv ∈ DESTINATION_MAPPING,
        kv.1.data ≠ [] ∧ ∀ c ∈ kv.1.data, c.isWhitespace = false := by decide
    unfold extract_destination_from_filename resolveSpec
    by_cases hlen : 2 ≤ (splitSep filename).length
    · rw [if_pos hlen]
      have h1lt : 1 < (splitSep filename).length := hlen
      obtain ⟨tok, htok⟩ : ∃ tok, (splitSep filename).get? 1 = some tok :=
        ⟨(splitSep filename).get ⟨1, h1lt⟩, List.get?_eq_get h1lt⟩
      have hgetD : (splitSep filename).getD 1 "" = tok := by
        rw [List.getD_eq_getElem?_getD, ← List.get?_eq_getElem?, htok]
        rfl
      rw [htok, hgetD]
      have hfind : DESTINATION_MAPPING.find? (fun kv => strContains kv.1 (pyStrip tok)) =
          DESTINATION_MAPPING.find? (fun kv => strContains kv.1 tok) := by
        apply find?_congr
        intro kv hkv
        exact strContains_pyStrip (hkeys kv hkv).1 (hkeys kv hkv).2 tok
      show (match DESTINATION_MAPPING.find? (fun kv => strContains kv.1 (pyStrip tok)) with
        | some kv => kv.2
        | none => DEFAULT_DESTINATION) =
        match DESTINATION_MAPPING.find? (fun kv => strContains kv.1 tok) with
        | some kv => kv.2
        | none => "6__Misc"
      rw [hfind]
      cases DESTINATION_MAPPING.find? (fun kv => strContains kv.1 tok) with
      | some kv => rfl
      | none => rfl
    · rw [if_neg hlen]
      have hnone : (splitSep filename).get? 1 = none :=
        List.get?_eq_none.mpr (by omega)
      rw [hnone]
      rfl
  · rfl

/-! ### Uniqueness of the collision-free filename -/

theorem string_data_append (a b : String) : (a ++ b).data = a.data ++ b.data := rfl

theorem natToDec_eq_of_data {i j : Nat} (h : (natToDec i).data = (natToDec j).data) :
    i = j :=
  natToDec_inj (congrArg String.mk h)

theorem mkNumbered_inj {folder : FsPath} {base ext : String} {i j : Nat}
    (h : mkNumbered folder base ext i = mkNumbered folder base ext j) : i = j := by
  unfold mkNumbered at h
  have h1 : base ++ "_" ++ natToDec i ++ ext = base ++ "_" ++ natToDec j ++ ext := by
    have := List.append_cancel_left h
    exact (List.cons.inj this).1
  have h2 : (base ++ "_" ++ natToDec i ++ ext).data =
      (base ++ "_" ++ natToDec j ++ ext).data := congrArg String.data h1
  simp only [string_data_append, List.append_assoc] at h2
  have h3 := List.append_cancel_left h2
  have h4 := List.append_cancel_left h3
  have h5 := List.append_cancel_right h4
  exact natToDec_eq_of_data h5

theorem uniqLoop_not_mem {ex : List FsPath} {folder : FsPath} {base ext : String} :
    ∀ fuel counter, (∃ k, k ≤ fuel ∧ mkNumbered folder base ext (counter + k) ∉ ex) →
      uniqLoop ex folder base ext counter fuel ∉ ex := by
  intro fuel
  induction fuel with
  | zero =>
    intro counter ⟨k, hk, hnm⟩
    have hk0 : k = 0 := by omega
    rw [hk0] at hnm
    rw [uniqLoop]
    rw [if_neg (by simpa using hnm)]
    simpa using hnm
  | succ f ih =>
    intro counter ⟨k, hk, hnm⟩
    rw [uniqLoop]
    by_cases hmem : mkNumbered folder base ext counter ∈ ex
    · rw [if_pos hmem]
      apply ih
      have hkne : k ≠ 0 := by
        intro hk0
        rw [hk0, Nat.add_zero] at hnm
        exact hnm hmem
      refine ⟨k - 1, by omega, ?_⟩
      have : counter + 1 + (k - 1) = counter + k := by omega
      rw [this]
      exact hnm
    · rw [if_neg hmem]
      exact hmem

theorem exists_free_candidate (ex : List FsPath) (folder : FsPath) (base ext : String)
    (counter : Nat) :
    ∃ k, k ≤ ex.length ∧ mkNumbered folder base ext (counter + k) ∉ ex := by
  by_contra hall
  push_neg at hall
  have hinj : Function.Injective (fun k => mkNumbered folder base ext (counter + k)) := by
    intro k1 k2 hk
    have := mkNumbered_inj hk
    omega
  have hnd : ((List.range (ex.length + 1)).map
      (fun k => mkNumbered folder base ext (counter + k))).Nodup :=
    (List.nodup_range _).map hinj
  have hsub : (List.range (ex.length + 1)).map
      (fun k => mkNumbered folder base ext (counter + k)) ⊆ ex := by
    intro x hx
    rcases List.mem_map.mp hx with ⟨k, hk, rfl⟩
    exact hall k (Nat.lt_succ_iff.mp (List.mem_range.mp hk))
  have hlen := (List.subperm_of_subset hnd hsub).length_le
  simp only [List.length_map, List.length_range] at hlen
  omega

theorem get_unique_filename_not_mem (ex : List FsPath) (folder : FsPath)
    (filename : String) : get_unique_filename ex folder filename ∉ ex := by
  unfold get_unique_filename
  by_cases hmem : folder ++ [filename] ∈ ex
  · rw [if_pos hmem]
    exact uniqLoop_not_mem ex.length 1
      (exists_free_candidate ex folder (splitext filename).1 (splitext filename).2 1)
  · rw [if_neg hmem]
    exact hmem

/-! ### Claim C6 -/

/-- Claim C6: the unique-filename computation returns `folder/name.ext`
unchanged when no entry of that name exists; with `name.ext` already present
it yields `name_1.ext`, and with both `name.ext` and `name_1.ext` present it
yields `name_2.ext` (numeric suffixes increment until free); and for every
folder state the returned path never names an existing entry. -/
theorem c6_get_unique_filename :
    (∀ ex folder filename, (folder ++ [filename]) ∉ ex →
      get_unique_filename ex folder filename = folder ++ [filename]) ∧
    get_unique_filename [["d", "name.ext"]] ["d"] "name.ext" = ["d", "name_1.ext"] ∧
    get_unique_filename [["d", "name.ext"], ["d", "name_1.ext"]] ["d"] "name.ext" =
      ["d", "name_2.ext"] ∧
    (∀ ex folder filename, get_unique_filename ex folder filename ∉ ex) := by
  refine ⟨?_, by decide, by decide, get_unique_filename_not_mem⟩
  intro ex folder filename hnm
  unfold get_unique_filename
  rw [if_neg hnm]

/-- Witness for C6 at concrete inputs: an empty folder keeps the name, and the
returned path for a colliding request is not among the existing entries. -/
theorem c6_witness :
    get_unique_filename [] ["d"] "name.ext" = ["d", "name.ext"] ∧
      get_unique_filename [["d", "name.ext"]] ["d"] "name.ext" ∉ [["d", "name.ext"]] :=
  ⟨c6_get_unique_filename.1 [] ["d"] "name.ext" (by decide),
   c6_get_unique_filename.2.2.2 [["d", "name.ext"]] ["d"] "name.ext"⟩

/-! ### Mover lemmas -/

theorem uniqLoop_shape (ex : List FsPath) (folder : FsPath) (base ext : String) :
    ∀ fuel counter, ∃ nm, uniqLoop ex folder base ext counter fuel = folder ++ [nm] := by
  intro fuel
  induction fuel with
  | zero =>
    intro counter
    rw [uniqLoop]
    split
    · exact ⟨base ++ "_" ++ natToDec counter ++ ext, rfl⟩
    · exact ⟨base ++ "_" ++ natToDec counter ++ ext, rfl⟩
  | succ f ih =>
    intro counter
    rw [uniqLoop]
    split
    · exact ih (counter + 1)
    · exact ⟨base ++ "_" ++ natToDec counter ++ ext, rfl⟩

theorem get_unique_filename_shape (ex : List FsPath) (folder : FsPath) (filename : String) :
    ∃ nm, get_unique_filename ex folder filename = folder ++ [nm] := by
  unfold get_unique_filename
  by_cases hmem : folder ++ [filename] ∈ ex
  · rw [if_pos hmem]
    exact uniqLoop_shape ex folder (splitext filename).1 (splitext filename).2 ex.length 1
  · rw [if_neg hmem]
    exact ⟨filename, rfl⟩

theorem movePhase_counters (env : Env) (fp target : FsPath) (nm : String) (st : RunState) :
    (movePhase env fp target nm st).moved + (movePhase env fp target nm st).skipped =
        st.moved + st.skipped + 1 ∧
      (movePhase env fp target nm st).total = st.total := by
  simp only [movePhase]
  split
  · refine ⟨?_, rfl⟩
    show st.moved + 1 + st.skipped = st.moved + st.skipped + 1
    omega
  · refine ⟨?_, rfl⟩
    show st.moved + (st.skipped + 1) = st.moved + st.skipped + 1
    omega

theorem movePhase_spec (env : Env) (fp target : FsPath) (nm : String) (st : RunState)
    (hmem : fp ∈ st.files) (hnd : st.files.Nodup) :
    ((movePhase env fp target nm st).moved = st.moved + 1 ∧
      (movePhase env fp target nm st).skipped = st.skipped ∧
      (movePhase env fp target nm st).files =
        get_unique_filename (exList st) target nm :: st.files.erase fp ∧
      get_unique_filename (exList st) target nm ∈ (movePhase env fp target nm st).files ∧
      fp ∉ (movePhase env fp target nm st).files ∧
      get_unique_filename (exList st) target nm ∉ st.files) ∨
    ((movePhase env fp target nm st).moved = st.moved ∧
      (movePhase env fp target nm st).skipped = st.skipped + 1 ∧
      (movePhase env fp target nm st).files = st.files) := by
  have hdest := get_unique_filename_not_mem (exList st) target nm
  have hfpex : fp ∈ exList st := List.mem_append_left st.dirs hmem
  simp only [movePhase]
  split
  · left
    refine ⟨rfl, rfl, rfl, List.mem_cons_self _ _, ?_, ?_⟩
    · intro hfp
      rcases List.mem_cons.mp hfp with heq | herase
      · rw [heq] at hfpex
        exact hdest hfpex
      · exact ((hnd.mem_erase_iff).mp herase).1 rfl
    · intro hmem2
      exact hdest (List.mem_append_left st.dirs hmem2)
  · right
    exact ⟨rfl, rfl, rfl⟩

theorem move_file_counters (env : Env) (serial : String) (fp sf : FsPath) (sub : String)
    (st : RunState) :
    (move_file env serial fp sf sub st).moved + (move_file env serial fp sf sub st).skipped =
        st.moved + st.skipped + 1 ∧
      (move_file env serial fp sf sub st).total = st.total := by
  simp only [move_file]
  split
  · exact movePhase_counters env fp _ _ _
  · split
    · exact movePhase_counters env fp _ _ _
    · refine ⟨?_, rfl⟩
      show st.moved + (st.skipped + 1) = st.moved + st.skipped + 1
      omega

/-! ### Counter lemmas for the batch loop -/

theorem movePhase_one (env : Env) (fp target : FsPath) (nm : String) (st : RunState) :
    ((movePhase env fp target nm st).moved = st.moved + 1 ∧
      (movePhase env fp target nm st).skipped = st.skipped) ∨
    ((movePhase env fp target nm st).moved = st.moved ∧
      (movePhase env fp target nm st).skipped = st.skipped + 1) := by
  simp only [movePhase]
  split
  · exact Or.inl ⟨rfl, rfl⟩
  · exact Or.inr ⟨rfl, rfl⟩

theorem move_file_one (env : Env) (serial : String) (fp sf : FsPath) (sub : String)
    (st : RunState) :
    ((move_file env serial fp sf sub st).moved = st.moved + 1 ∧
      (move_file env serial fp sf sub st).skipped = st.skipped) ∨
    ((move_file env serial fp sf sub st).moved = st.moved ∧
      (move_file env serial fp sf sub st).skipped = st.skipped + 1) := by
  simp only [move_file]
  split
  · exact movePhase_one env fp _ _ _
  · split
    · exact movePhase_one env fp _ _ _
    · exact Or.inr ⟨rfl, rfl⟩

theorem move_file_inv (env : Env) (serial : String) (fp sf : FsPath) (sub : String)
    (st : RunState) (h : st.total = st.moved + st.skipped + 1) :
    (move_file env serial fp sf sub st).total =
      (move_file env serial fp sf sub st).moved +
        (move_file env serial fp sf sub st).skipped := by
  obtain ⟨h1, h2⟩ := move_file_counters env serial fp sf sub st
  omega

theorem processFile_inv (env : Env) (valid_prefixes : List String) (source_folder : FsPath)
    (st : RunState) (fn : String) (h : st.total = st.moved + st.skipped) :
    (processFile env valid_prefixes source_folder st fn).total =
      (processFile env valid_prefixes source_folder st fn).moved +
        (processFile env valid_prefixes source_folder st fn).skipped := by
  simp only [processFile]
  split
  · split
    · apply move_file_inv
      show st.total + 1 = st.moved + st.skipped + 1
      omega
    · show st.total + 1 = st.moved + (st.skipped + 1)
      omega
  · exact h

theorem processFileUser_inv (env : Env) (valid_prefixes : List String) (source_folder : FsPath)
    (destination_subfolder : String) (st : RunState) (fn : String)
    (h : st.total = st.moved + st.skipped) :
    (processFileUser env valid_prefixes source_folder destination_subfolder st fn).total =
      (processFileUser env valid_prefixes source_folder destination_subfolder st fn).moved +
        (processFileUser env valid_prefixes source_folder destination_subfolder st fn).skipped := by
  simp only [processFileUser]
  split
  · split
    · apply move_file_inv
      show st.total + 1 = st.moved + st.skipped + 1
      omega
    · show st.total + 1 = st.moved + (st.skipped + 1)
      omega
  · exact h

theorem runBatch_inv (env : Env) (valid_prefixes : List String) (source_folder : FsPath) :
    ∀ (filenames : List String) (st : RunState), st.total = st.moved + st.skipped →
      (runBatch env valid_prefixes source_folder st filenames).total =
        (runBatch env valid_prefixes source_folder st filenames).moved +
          (runBatch env valid_prefixes source_folder st filenames).skipped := by
  intro filenames
  induction filenames with
  | nil => exact fun st h => h
  | cons fn rest ih =>
    intro st h
    show (runBatch env valid_prefixes source_folder
      (processFile env valid_prefixes source_folder st fn) rest).total = _
    exact ih _ (processFile_inv env valid_prefixes source_folder st fn h)

theorem runBatchUser_inv (env : Env) (valid_prefixes : List String) (source_folder : FsPath)
    (destination_subfolder : String) :
    ∀ (filenames : List String) (st : RunState), st.total = st.moved + st.skipped →
      (runBatchUser env valid_prefixes source_folder destination_subfolder st filenames).total =
        (runBatchUser env valid_prefixes source_folder destination_subfolder st filenames).moved +
          (runBatchUser env valid_prefixes source_folder destination_subfolder st
            filenames).skipped := by
  intro filenames
  induction filenames with
  | nil => exact fun st h => h
  | cons fn rest ih =>
    intro st h
    show (runBatchUser env valid_prefixes source_folder destination_subfolder
      (processFileUser env valid_prefixes source_folder destination_subfolder st fn) rest).total = _
    exact ih _ (processFileUser_inv env valid_prefixes source_folder destination_subfolder st fn h)

/-! ### Claim C10 -/

/-- Claim C10: from any state satisfying the counter equation
`total = moved + skipped` (in particular the zero-initialized start state),
running the batch loop of either script over any file list preserves it, so
it holds at every loop boundary and at summary time; moreover each processed
file (an entry present as a file) bumps the processed total by exactly 1 and
exactly one of the moved/skipped counters by exactly 1, including when
directory creation or the relocation fails inside the mover. -/
theorem c10_counter_equation (env : Env) (valid_prefixes : List String)
    (source_folder : FsPath) (st : RunState) (h : st.total = st.moved + st.skipped) :
    (∀ filenames, (runBatch env valid_prefixes source_folder st filenames).total =
        (runBatch env valid_prefixes source_folder st filenames).moved +
          (runBatch env valid_prefixes source_folder st filenames).skipped) ∧
    (∀ destination_subfolder filenames,
      (runBatchUser env valid_prefixes source_folder destination_subfolder st filenames).total =
        (runBatchUser env valid_prefixes source_folder destination_subfolder st
            filenames).moved +
          (runBatchUser env valid_prefixes source_folder destination_subfolder st
            filenames).skipped) ∧
    (∀ fn, (source_folder ++ [fn]) ∈ st.files →
      (processFile env valid_prefixes source_folder st fn).total = st.total + 1 ∧
      (((processFile env valid_prefixes source_folder st fn).moved = st.moved + 1 ∧
          (processFile env valid_prefixes source_folder st fn).skipped = st.skipped) ∨
        ((processFile env valid_prefixes source_folder st fn).moved = st.moved ∧
          (processFile env valid_prefixes source_folder st fn).skipped = st.skipped + 1))) := by
  refine ⟨fun filenames => runBatch_inv env valid_prefixes source_folder filenames st h,
    fun dsub filenames => runBatchUser_inv env valid_prefixes source_folder dsub filenames st h,
    ?_⟩
  intro fn hfile
  simp only [processFile]
  rw [if_pos hfile]
  split
  · constructor
    · exact (move_file_counters env _ _ source_folder _ _).2
    · exact move_file_one env _ _ source_folder _ _
  · exact ⟨rfl, Or.inr ⟨rfl, rfl⟩⟩

/-- Witness for C10 at a concrete one-file run of both scripts from the
zero-initialized state. -/
theorem c10_witness :
    (∀ filenames,
      (runBatch ⟨fun _ => true, fun _ _ => true⟩ ["AB1234"] ["Files"]
          ⟨[["Files", "AB12345678_Misc_x.jpg"]], [], 0, 0, 0, [], []⟩ filenames).total =
        (runBatch ⟨fun _ => true, fun _ _ => true⟩ ["AB1234"] ["Files"]
            ⟨[["Files", "AB12345678_Misc_x.jpg"]], [], 0, 0, 0, [], []⟩ filenames).moved +
          (runBatch ⟨fun _ => true, fun _ _ => true⟩ ["AB1234"] ["Files"]
            ⟨[["Files", "AB12345678_Misc_x.jpg"]], [], 0, 0, 0, [], []⟩ filenames).skipped) ∧
    (∀ destination_subfolder filenames,
      (runBatchUser ⟨fun _ => true, fun _ _ => true⟩ ["AB1234"] ["Files"] destination_subfolder
          ⟨[["Files", "AB12345678_Misc_x.jpg"]], [], 0, 0, 0, [], []⟩ filenames).total =
        (runBatchUser ⟨fun _ => true, fun _ _ => true⟩ ["AB1234"] ["Files"] destination_subfolder
            ⟨[["Files", "AB12345678_Misc_x.jpg"]], [], 0, 0, 0, [], []⟩ filenames).moved +
          (runBatchUser ⟨fun _ => true, fun _ _ => true⟩ ["AB1234"] ["Files"] destination_subfolder
            ⟨[["Files", "AB12345678_Misc_x.jpg"]], [], 0, 0, 0, [], []⟩ filenames).skipped) ∧
    (∀ fn, (["Files"] ++ [fn]) ∈
        (⟨[["Files", "AB12345678_Misc_x.jpg"]], [], 0, 0, 0, [], []⟩ : RunState).files →
      (processFile ⟨fun _ => true, fun _ _ => true⟩ ["AB1234"] ["Files"]
          ⟨[["Files", "AB12345678_Misc_x.jpg"]], [], 0, 0, 0, [], []⟩ fn).total = 0 + 1 ∧
      (((processFile ⟨fun _ => true, fun _ _ => true⟩ ["AB1234"] ["Files"]
            ⟨[["Files", "AB12345678_Misc_x.jpg"]], [], 0, 0, 0, [], []⟩ fn).moved = 0 + 1 ∧
          (processFile ⟨fun _ => true, fun _ _ => true⟩ ["AB1234"] ["Files"]
            ⟨[["Files", "AB12345678_Misc_x.jpg"]], [], 0, 0, 0, [], []⟩ fn).skipped = 0) ∨
        ((processFile ⟨fun _ => true, fun _ _ => true⟩ ["AB1234"] ["Files"]
            ⟨[["Files", "AB12345678_Misc_x.jpg"]], [], 0, 0, 0, [], []⟩ fn).moved = 0 ∧
          (processFile ⟨fun _ => true, fun _ _ => true⟩ ["AB1234"] ["Files"]
            ⟨[["Files", "AB12345678_Misc_x.jpg"]], [], 0, 0, 0, [], []⟩ fn).skipped = 0 + 1))) :=
  c10_counter_equation ⟨fun _ => true, fun _ _ => true⟩ ["AB1234"] ["Files"]
    ⟨[["Files", "AB12345678_Misc_x.jpg"]], [], 0, 0, 0, [], []⟩ rfl

/-! ### Claim C7 -/

/-- Claim C7: when the leading token of a filename fails serial validation,
or its 6-character prefix is not in the loaded registry, the batch loop
counts the file, increments only the skipped counter, appends a single
warning log line, and leaves the filesystem (both files and directories)
untouched — the mover is never reached and the file stays at its source
path. -/
theorem c7_invalid_file_skipped (env : Env) (valid_prefixes : List String)
    (source_folder : FsPath) (fn : String) (st : RunState)
    (hfile : (source_folder ++ [fn]) ∈ st.files)
    (hbad : is_valid_serial ((splitSep fn).headD "") = none ∨
      ∀ cs, is_valid_serial ((splitSep fn).headD "") = some cs →
        cs.take 6 ∉ valid_prefixes) :
    (processFile env valid_prefixes source_folder st fn).skipped = st.skipped + 1 ∧
    (processFile env valid_prefixes source_folder st fn).moved = st.moved ∧
    (processFile env valid_prefixes source_folder st fn).files = st.files ∧
    (processFile env valid_prefixes source_folder st fn).dirs = st.dirs ∧
    (processFile env valid_prefixes source_folder st fn).total = st.total + 1 ∧
    ∃ m, (processFile env valid_prefixes source_folder st fn).logs = m :: st.logs ∧
      "Warning: ".data <+: m.data := by
  obtain ⟨msg, hmsg, hpre⟩ : ∃ m,
      validate_serial_and_pfx ((splitSep fn).headD "") fn valid_prefixes = (false, m, none) ∧
        "Warning: ".data <+: m.data := by
    simp only [validate_serial_and_pfx]
    cases hval : is_valid_serial ((splitSep fn).headD "") with
    | none =>
      refine ⟨_, rfl, ?_⟩
      simp only [string_data_append, List.append_assoc]
      exact List.prefix_append _ _
    | some cs =>
      rcases hbad with h | h
      · rw [hval] at h
        exact Option.noConfusion h
      · show ∃ m,
          (if cs.take 6 ∈ valid_prefixes then ((true : Bool), "", some cs)
            else (false, "Warning: " ++ fn ++ ": The detected prefix " ++ cs.take 6 ++
              " is not in the valid prefixes list. Skipping move.\n", (none : Option String))) =
            (false, m, none) ∧ "Warning: ".data <+: m.data
        rw [if_neg (h cs hval)]
        refine ⟨_, rfl, ?_⟩
        simp only [string_data_append, List.append_assoc]
        exact List.prefix_append _ _
  have hres : processFile env valid_prefixes source_folder st fn =
      { st with total := st.total + 1, skipped := st.skipped + 1, logs := msg :: st.logs } := by
    simp only [processFile]
    rw [if_pos hfile, hmsg]
    rfl
  rw [hres]
  exact ⟨rfl, rfl, rfl, rfl, rfl, msg, rfl, hpre⟩

/-- Witness for C7 on the spec scenario file "short_Misc.jpg" (leading token
of length 5). -/
theorem c7_witness :
    (processFile ⟨fun _ => true, fun _ _ => true⟩ ["AB1234"] ["Files"]
        ⟨[["Files", "short_Misc.jpg"]], [], 3, 4, 7, [], []⟩ "short_Misc.jpg").skipped = 4 + 1 ∧
    (processFile ⟨fun _ => true, fun _ _ => true⟩ ["AB1234"] ["Files"]
        ⟨[["Files", "short_Misc.jpg"]], [], 3, 4, 7, [], []⟩ "short_Misc.jpg").moved = 3 ∧
    (processFile ⟨fun _ => true, fun _ _ => true⟩ ["AB1234"] ["Files"]
        ⟨[["Files", "short_Misc.jpg"]], [], 3, 4, 7, [], []⟩ "short_Misc.jpg").files =
      [["Files", "short_Misc.jpg"]] ∧
    (processFile ⟨fun _ => true, fun _ _ => true⟩ ["AB1234"] ["Files"]
        ⟨[["Files", "short_Misc.jpg"]], [], 3, 4, 7, [], []⟩ "short_Misc.jpg").dirs = [] ∧
    (processFile ⟨fun _ => true, fun _ _ => true⟩ ["AB1234"] ["Files"]
        ⟨[["Files", "short_Misc.jpg"]], [], 3, 4, 7, [], []⟩ "short_Misc.jpg").total = 7 + 1 ∧
    ∃ m, (processFile ⟨fun _ => true, fun _ _ => true⟩ ["AB1234"] ["Files"]
        ⟨[["Files", "short_Misc.jpg"]], [], 3, 4, 7, [], []⟩ "short_Misc.jpg").logs = m :: [] ∧
      "Warning: ".data <+: m.data :=
  c7_invalid_file_skipped ⟨fun _ => true, fun _ _ => true⟩ ["AB1234"] ["Files"]
    "short_Misc.jpg" ⟨[["Files", "short_Misc.jpg"]], [], 3, 4, 7, [], []⟩
    (by decide) (Or.inl (by decide))

/-! ### Claim C8 -/

theorem move_file_cases (env : Env) (serial : String) (fp sf : FsPath) (sub : String)
    (st : RunState) :
    (∃ st1 : RunState, st1.files = st.files ∧ st1.moved = st.moved ∧
      st1.skipped = st.skipped ∧
      move_file env serial fp sf sub st =
        movePhase env fp (DESTINATION_ROOT ++ [serial.take 6, serial, sub]) (basename fp) st1) ∨
    (move_file env serial fp sf sub st).files = st.files ∧
      (move_file env serial fp sf sub st).moved = st.moved ∧
      (move_file env serial fp sf sub st).skipped = st.skipped + 1 := by
  simp only [move_file]
  split
  · exact Or.inl ⟨st, rfl, rfl, rfl, rfl⟩
  · split
    · refine Or.inl ⟨_, ?_, ?_, ?_, rfl⟩ <;> rfl
    · exact Or.inr ⟨rfl, rfl, rfl⟩

/-- Claim C8: every invocation of the mover on a file present in the
filesystem is all-or-nothing — either it fully succeeds (moved counter
bumped, the file present at a new destination path that did not previously
exist and absent from its old source path), or it fully fails with a skipped
outcome and the set of file paths is exactly what it was; no partial-move
state is observable.  The relocation call itself is modelled as atomic, as
the spec asserts; the mover creates no file-level intermediate state around
it. -/
theorem c8_move_all_or_nothing (env : Env) (serial : String) (fp sf : FsPath) (sub : String)
    (st : RunState) (hmem : fp ∈ st.files) (hnd : st.files.Nodup) :
    ((move_file env serial fp sf sub st).moved = st.moved + 1 ∧
      (move_file env serial fp sf sub st).skipped = st.skipped ∧
      ∃ dest, (move_file env serial fp sf sub st).files = dest :: st.files.erase fp ∧
        dest ∈ (move_file env serial fp sf sub st).files ∧
        fp ∉ (move_file env serial fp sf sub st).files ∧ dest ∉ st.files) ∨
    ((move_file env serial fp sf sub st).moved = st.moved ∧
      (move_file env serial fp sf sub st).skipped = st.skipped + 1 ∧
      (move_file env serial fp sf sub st).files = st.files) := by
  rcases move_file_cases env serial fp sf sub st with ⟨st1, hf, hm, hs, heq⟩ | ⟨hf, hm, hs⟩
  · have hmem1 : fp ∈ st1.files := by rw [hf]; exact hmem
    have hnd1 : st1.files.Nodup := by rw [hf]; exact hnd
    rw [heq]
    rcases movePhase_spec env fp (DESTINATION_ROOT ++ [serial.take 6, serial, sub])
        (basename fp) st1 hmem1 hnd1 with
      ⟨h1, h2, h3, h4, h5, h6⟩ | ⟨h1, h2, h3⟩
    · rw [hm] at h1
      rw [hs] at h2
      rw [hf] at h3 h6
      exact Or.inl ⟨h1, h2, _, h3, h4, h5, h6⟩
    · rw [hm] at h1
      rw [hs] at h2
      rw [hf] at h3
      exact Or.inr ⟨h1, h2, h3⟩
  · exact Or.inr ⟨hm, hs, hf⟩

/-- Witness for C8 with a concrete one-file state and an all-success
environment. -/
theorem c8_witness :
    ((move_file ⟨fun _ => true, fun _ _ => true⟩ "AB12345678" ["Files", "f.jpg"] ["Files"]
        "6__Misc" ⟨[["Files", "f.jpg"]], [], 0, 0, 0, [], []⟩).moved = 0 + 1 ∧
      (move_file ⟨fun _ => true, fun _ _ => true⟩ "AB12345678" ["Files", "f.jpg"] ["Files"]
        "6__Misc" ⟨[["Files", "f.jpg"]], [], 0, 0, 0, [], []⟩).skipped = 0 ∧
      ∃ dest, (move_file ⟨fun _ => true, fun _ _ => true⟩ "AB12345678" ["Files", "f.jpg"]
          ["Files"] "6__Misc" ⟨[["Files", "f.jpg"]], [], 0, 0, 0, [], []⟩).files =
          dest :: [["Files", "f.jpg"]].erase ["Files", "f.jpg"] ∧
        dest ∈ (move_file ⟨fun _ => true, fun _ _ => true⟩ "AB12345678" ["Files", "f.jpg"]
          ["Files"] "6__Misc" ⟨[["Files", "f.jpg"]], [], 0, 0, 0, [], []⟩).files ∧
        ["Files", "f.jpg"] ∉ (move_file ⟨fun _ => true, fun _ _ => true⟩ "AB12345678"
          ["Files", "f.jpg"] ["Files"] "6__Misc"
          ⟨[["Files", "f.jpg"]], [], 0, 0, 0, [], []⟩).files ∧
        dest ∉ [["Files", "f.jpg"]]) ∨
    ((move_file ⟨fun _ => true, fun _ _ => true⟩ "AB12345678" ["Files", "f.jpg"] ["Files"]
        "6__Misc" ⟨[["Files", "f.jpg"]], [], 0, 0, 0, [], []⟩).moved = 0 ∧
      (move_file ⟨fun _ => true, fun _ _ => true⟩ "AB12345678" ["Files", "f.jpg"] ["Files"]
        "6__Misc" ⟨[["Files", "f.jpg"]], [], 0, 0, 0, [], []⟩).skipped = 0 + 1 ∧
      (move_file ⟨fun _ => true, fun _ _ => true⟩ "AB12345678" ["Files", "f.jpg"] ["Files"]
        "6__Misc" ⟨[["Files", "f.jpg"]], [], 0, 0, 0, [], []⟩).files =
        [["Files", "f.jpg"]]) :=
  c8_move_all_or_nothing ⟨fun _ => true, fun _ _ => true⟩ "AB12345678" ["Files", "f.jpg"]
    ["Files"] "6__Misc" ⟨[["Files", "f.jpg"]], [], 0, 0, 0, [], []⟩ (by decide) (by decide)

/-! ### Claim C5 -/

/-- Claim C5: for every valid serial and category, the mover derives the
target directory as destination root / first 6 characters of the serial /
serial / category, and on a successful relocation the file lands at that
directory joined with the collision-resolved original filename; in
particular the spec scenario filename "AB12345678_FinalOutgoing_IMG01.jpg"
with registered prefix "AB1234" ends up at
root/AB1234/AB12345678/5__Final Outgoing/AB12345678_FinalOutgoing_IMG01.jpg. -/
theorem c5_target_path :
    (∀ (env : Env) (serial : String) (fp sf : FsPath) (sub : String) (st : RunState),
      DESTINATION_ROOT ++ [serial.take 6, serial, sub] ∈ exList st →
      env.moveOk fp (get_unique_filename (exList st)
        (DESTINATION_ROOT ++ [serial.take 6, serial, sub]) (basename fp)) = true →
      (move_file env serial fp sf sub st).files =
        get_unique_filename (exList st) (DESTINATION_ROOT ++ [serial.take 6, serial, sub])
          (basename fp) :: st.files.erase fp ∧
      ∃ nm, get_unique_filename (exList st) (DESTINATION_ROOT ++ [serial.take 6, serial, sub])
          (basename fp) = DESTINATION_ROOT ++ [serial.take 6, serial, sub] ++ [nm]) ∧
    (runBatch ⟨fun _ => true, fun _ _ => true⟩ ["AB1234"] ["Files"]
        ⟨[["Files", "AB12345678_FinalOutgoing_IMG01.jpg"]], [], 0, 0, 0, [], []⟩
        ["AB12345678_FinalOutgoing_IMG01.jpg"]).files =
      [DESTINATION_ROOT ++ ["AB1234", "AB12345678", "5__Final Outgoing",
        "AB12345678_FinalOutgoing_IMG01.jpg"]] := by
  constructor
  · intro env serial fp sf sub st hdir hmv
    constructor
    · simp only [move_file]
      rw [if_pos hdir]
      simp only [movePhase]
      rw [if_pos hmv]
    · exact get_unique_filename_shape (exList st)
        (DESTINATION_ROOT ++ [serial.take 6, serial, sub]) (basename fp)
  · decide

/-- Witness for C5 at a concrete state whose target directory already
exists and whose relocation succeeds. -/
theorem c5_witness :
    (move_file ⟨fun _ => true, fun _ _ => true⟩ "AB12345678" ["Files", "f.jpg"] ["Files"]
        "5__Final Outgoing"
        ⟨[["Files", "f.jpg"]],
          [DESTINATION_ROOT ++ ["AB1234", "AB12345678", "5__Final Outgoing"]],
          0, 0, 0, [], []⟩).files =
      get_unique_filename
        (exList ⟨[["Files", "f.jpg"]],
          [DESTINATION_ROOT ++ ["AB1234", "AB12345678", "5__Final Outgoing"]],
          0, 0, 0, [], []⟩)
        (DESTINATION_ROOT ++ ["AB12345678".take 6, "AB12345678", "5__Final Outgoing"])
        (basename ["Files", "f.jpg"]) :: [["Files", "f.jpg"]].erase ["Files", "f.jpg"] ∧
    ∃ nm, get_unique_filename
        (exList ⟨[["Files", "f.jpg"]],
          [DESTINATION_ROOT ++ ["AB1234", "AB12345678", "5__Final Outgoing"]],
          0, 0, 0, [], []⟩)
        (DESTINATION_ROOT ++ ["AB12345678".take 6, "AB12345678", "5__Final Outgoing"])
        (basename ["Files", "f.jpg"]) =
      DESTINATION_ROOT ++ ["AB12345678".take 6, "AB12345678", "5__Final Outgoing"] ++ [nm] :=
  c5_target_path.1 ⟨fun _ => true, fun _ _ => true⟩ "AB12345678" ["Files", "f.jpg"] ["Files"]
    "5__Final Outgoing"
    ⟨[["Files", "f.jpg"]],
      [DESTINATION_ROOT ++ ["AB1234", "AB12345678", "5__Final Outgoing"]],
      0, 0, 0, [], []⟩
    (by decide) (by decide)
